import Mathlib

/-!
Verification development for the chat client repository: a shallow embedding of
the thread store (thread.store.ts), the thread utilities (thread.utils.ts), the
SSE completion stream client (chat.service.ts) and the streaming hook
(chat.hooks.ts), together with proofs of the documented behavioural properties.

Modelling conventions:
- JavaScript Date values are modelled as natural numbers (milliseconds since
  epoch); each call site that evaluates `new Date()` receives the current time
  as an explicit parameter.
- `uniqueId`-style generated identifiers are passed in as explicit parameters.
- The browser localStorage read in `loadThreads` is modelled by a
  `StoredValue` argument: `absent` (no entry under the key), `unparseable`
  (JSON.parse throws, caught by the try/catch) or `parsed` (the decoded
  thread list). `saveThreads` returns the list that is written.
- JavaScript `Array.prototype.sort` with the comparator
  `(a, b) => b.updatedAt - a.updatedAt` is modelled by a comparison-based sort
  on the relation `b.updatedAt ≤ a.updatedAt` (descending by `updatedAt`).
-/

/-- Role of a chat message: the union type of role in chat.types.ts. -/
inductive Role where
  | user
  | assistant
  | system
deriving DecidableEq

/-- ChatMessage from chat.types.ts: id, role, content and creation timestamp. -/
structure ChatMessage where
  id : String
  role : Role
  content : String
  timestamp : Nat
deriving DecidableEq

/-- ChatThread from chat.types.ts: id, title, ordered message list, timestamps. -/
structure ChatThread where
  id : String
  title : String
  messages : List ChatMessage
  createdAt : Nat
  updatedAt : Nat
deriving DecidableEq

/-- In-memory state of the thread store: the thread list and the current
selection (null modelled as `none`). -/
@[ext]
structure StoreState where
  threads : List ChatThread
  currentThreadId : Option String
deriving DecidableEq

/-- generateThreadTitle from thread.utils.ts: the trimmed content of the first
user message truncated to 50 characters (with an ellipsis when truncated), or
the default title when there is no nonempty user message. -/
def generateThreadTitle (messages : List ChatMessage) : String :=
  match messages.find? (fun msg => msg.role == Role.user) with
  | some firstUserMessage =>
      let trimmed := firstUserMessage.content.trim
      if trimmed ≠ "" then
        let title := trimmed.take 50
        if title.length < trimmed.length then title ++ "..." else title
      else "New Chat"
  | none => "New Chat"

/-- createThread from thread.store.ts: builds a fresh empty thread, prepends it
to the thread list and selects it. The generated thread id and the current
time are explicit parameters; a missing or empty title argument (falsy in the
source) falls back to the default title. -/
def createThread (s : StoreState) (title : Option String) (threadId : String)
    (now : Nat) : StoreState :=
  let newThread : ChatThread :=
    { id := threadId
      title := match title with
               | some t => if t = "" then "New Chat" else t
               | none => "New Chat"
      messages := []
      createdAt := now
      updatedAt := now }
  { threads := newThread :: s.threads, currentThreadId := some threadId }

/-- getThread from thread.store.ts. -/
def getThread (s : StoreState) (id : String) : Option ChatThread :=
  s.threads.find? (fun thread => thread.id == id)

/-- getCurrentThread from thread.store.ts. -/
def getCurrentThread (s : StoreState) : Option ChatThread :=
  match s.currentThreadId with
  | none => none
  | some cid => s.threads.find? (fun thread => thread.id == cid)

/-- setCurrentThread from thread.store.ts. -/
def setCurrentThread (s : StoreState) (id : String) : StoreState :=
  { s with currentThreadId := some id }

/-- Per-thread body of the map inside addMessage in thread.store.ts: for the
addressed thread the new message is appended unless a message with the same id
already exists, `updatedAt` is refreshed and the title auto-derived from the
first user message while the thread still has the default title; every other
thread is returned unchanged. -/
def applyAddMessage (threadId : String) (role : Role) (newMessage : ChatMessage)
    (now : Nat) (thread : ChatThread) : ChatThread :=
  if thread.id == threadId then
    if thread.messages.any (fun msg => msg.id == newMessage.id) then
      thread
    else
      let updatedMessages := thread.messages ++ [newMessage]
      { thread with
        messages := updatedMessages
        updatedAt := now
        title :=
          if thread.title == "New Chat" && role == Role.user then
            generateThreadTitle updatedMessages
          else thread.title }
  else thread

/-- addMessage from thread.store.ts: builds the new message (an explicit
messageId wins over the generated one) and maps `applyAddMessage` over the
thread list. -/
def addMessage (s : StoreState) (threadId : String) (role : Role)
    (content : String) (messageId : Option String) (generatedId : String)
    (now : Nat) : StoreState :=
  { s with
    threads := s.threads.map (applyAddMessage threadId role
      { id := messageId.getD generatedId
        role := role
        content := content
        timestamp := now } now) }

/-- Per-thread body of the map inside updateMessage in thread.store.ts: the
addressed thread has the content of the addressed message replaced and
`updatedAt` refreshed; every other thread is returned unchanged. -/
def applyUpdateMessage (threadId : String) (messageId : String)
    (content : String) (now : Nat) (thread : ChatThread) : ChatThread :=
  if thread.id == threadId then
    { thread with
      messages := thread.messages.map (fun msg =>
        if msg.id == messageId then { msg with content := content } else msg)
      updatedAt := now }
  else thread

/-- updateMessage from thread.store.ts: full replacement of the content of the
addressed message, refreshing `updatedAt` of the addressed thread. -/
def updateMessage (s : StoreState) (threadId : String) (messageId : String)
    (content : String) (now : Nat) : StoreState :=
  { s with threads := s.threads.map (applyUpdateMessage threadId messageId content now) }

/-- renameThread from thread.store.ts: trims the new title, falling back to the
default title when the trimmed result is empty. -/
def renameThread (s : StoreState) (threadId : String) (newTitle : String) :
    StoreState :=
  { s with
    threads := s.threads.map (fun thread =>
      if thread.id == threadId then
        { thread with
          title := if newTitle.trim = "" then "New Chat" else newTitle.trim }
      else thread) }

/-- deleteThread from thread.store.ts: removes the addressed thread; when it
was the current one, the selection moves to the head of the remaining list (or
to none when the list became empty). -/
def deleteThread (s : StoreState) (threadId : String) : StoreState :=
  let remainingThreads := s.threads.filter (fun thread => thread.id != threadId)
  let newCurrentThreadId :=
    if s.currentThreadId = some threadId then
      match remainingThreads with
      | [] => none
      | h :: _ => some h.id
    else s.currentThreadId
  { threads := remainingThreads, currentThreadId := newCurrentThreadId }

/-- clearThreads from thread.store.ts. -/
def clearThreads (_s : StoreState) : StoreState :=
  { threads := [], currentThreadId := none }

/-- Deduplication loop of loadThreads and saveThreads in thread.store.ts: keeps
a message when its id has not been seen yet, tracking the seen ids. -/
def dedupMessagesAux : List String → List ChatMessage → List ChatMessage
  | _, [] => []
  | seen, msg :: rest =>
      if msg.id ∈ seen then dedupMessagesAux seen rest
      else msg :: dedupMessagesAux (msg.id :: seen) rest

/-- Message deduplication by id, keeping the first occurrence (the Set-based
filter in loadThreads and saveThreads). -/
def dedupMessages (messages : List ChatMessage) : List ChatMessage :=
  dedupMessagesAux [] messages

/-- Descending-recency comparison used by the sort calls in thread.store.ts:
the comparator `(a, b) => b.updatedAt - a.updatedAt` orders a before b exactly
when `b.updatedAt ≤ a.updatedAt`. -/
def threadGE (a b : ChatThread) : Prop :=
  b.updatedAt ≤ a.updatedAt

instance : DecidableRel threadGE := fun a b => Nat.decLe b.updatedAt a.updatedAt

instance : IsTotal ChatThread threadGE :=
  ⟨fun a b => Nat.le_total b.updatedAt a.updatedAt⟩

instance : IsTrans ChatThread threadGE :=
  ⟨fun _ _ _ hab hbc => Nat.le_trans hbc hab⟩

/-- Sorting a thread list most-recent first, the model of
`threads.sort((a, b) => b.updatedAt - a.updatedAt)`. -/
def sortThreadsDesc (threads : List ChatThread) : List ChatThread :=
  threads.insertionSort threadGE

/-- A thread list is in descending `updatedAt` order. -/
def sortedByUpdatedAtDesc (threads : List ChatThread) : Prop :=
  List.Sorted threadGE threads

instance (threads : List ChatThread) : Decidable (sortedByUpdatedAtDesc threads) :=
  List.decidableSorted threads

/-- Outcome of the localStorage read plus JSON.parse in loadThreads. -/
inductive StoredValue where
  | absent
  | unparseable
  | parsed (threads : List ChatThread)

/-- loadThreads from thread.store.ts: when the key is absent nothing happens;
when JSON.parse throws the catch swallows the failure and nothing happens;
otherwise every thread has its messages deduplicated by id (first occurrence
kept), the list is sorted by `updatedAt` descending and replaces the in-memory
thread list, the selection being left untouched. -/
def loadThreads (stored : StoredValue) (s : StoreState) : StoreState :=
  match stored with
  | .absent => s
  | .unparseable => s
  | .parsed parsedThreads =>
      let threads := parsedThreads.map (fun thread =>
        { thread with messages := dedupMessages thread.messages })
      { s with threads := sortThreadsDesc threads }

/-- saveThreads from thread.store.ts, as the value written to the backing
store: every thread has its messages deduplicated by id, and the list is
sorted by `updatedAt` descending before being serialized. The in-memory state
is not modified by the save. -/
def saveThreads (s : StoreState) : List ChatThread :=
  sortThreadsDesc (s.threads.map (fun thread =>
    { thread with messages := dedupMessages thread.messages }))

/-!
Completion Stream Client: shallow embedding of streamChatCompletion in
chat.service.ts. An SSE event carries a raw `data` string; whether the code
forwards that string to JSON.parse is part of the handler logic being
verified, so each event also records what JSON.parse plus the
`choices[0].delta.content` extraction would yield on that string
(`malformed` when JSON.parse throws). The fetchEventSource transport is
modelled by its documented contract: delivered events invoke `onmessage` in
order; a normal server close invokes `onclose` and resolves the promise; a
transport failure invokes `onerror` (whose handler here rethrows, rejecting
the promise with the same error); an abort stops event delivery and rejects
the promise with an error named AbortError.
-/

/-- Result of JSON.parse plus the optional-chaining extraction of
`choices[0].delta.content` on an event payload. -/
inductive ParseResult where
  | malformed
  | ok (content : Option String)
deriving DecidableEq

/-- One SSE event: the raw payload string and what parsing it would yield. -/
structure SSEvent where
  data : String
  parsed : ParseResult
deriving DecidableEq

/-- Observable state of one streaming session inside streamChatCompletion: the
accumulation buffer, the arguments of the onChunk invocations so far, and the
payloads that were forwarded to JSON.parse. -/
structure ClientState where
  accumulatedContent : String
  chunkCalls : List String
  parseAttempts : List String
deriving DecidableEq

/-- Initial session state: empty buffer, no callbacks, no parse attempts. -/
def initialClientState : ClientState :=
  { accumulatedContent := "", chunkCalls := [], parseAttempts := [] }

/-- The onmessage handler of streamChatCompletion: the terminator sentinel is
matched exactly and skipped before any parsing; otherwise the payload goes to
JSON.parse, a parse failure is swallowed, and a truthy content fragment (JS
falsiness makes the empty string count as absent) is appended to the buffer,
onChunk receiving the full accumulated text. -/
def onMessage (st : ClientState) (event : SSEvent) : ClientState :=
  if event.data == "[DONE]" then st
  else
    let st1 := { st with parseAttempts := st.parseAttempts ++ [event.data] }
    match event.parsed with
    | .malformed => st1
    | .ok none => st1
    | .ok (some content) =>
        if content == "" then st1
        else
          let acc := st1.accumulatedContent ++ content
          { st1 with
            accumulatedContent := acc
            chunkCalls := st1.chunkCalls ++ [acc] }

/-- Processing of a whole delivered event sequence by the onmessage handler. -/
def processEvents (events : List SSEvent) : ClientState :=
  events.foldl onMessage initialClientState

/-- The text fragment an event contributes: none for the terminator sentinel,
for an unparseable payload, and for an absent or empty content field. -/
def eventFragment (event : SSEvent) : Option String :=
  if event.data == "[DONE]" then none
  else
    match event.parsed with
    | .malformed => none
    | .ok none => none
    | .ok (some content) => if content == "" then none else some content

/-- The fragments carried by a delivered event sequence, in arrival order. -/
def fragments (events : List SSEvent) : List String :=
  events.filterMap eventFragment

/-- Modelled from the spec: the cumulative texts a consumer must receive, the
i-th being the concatenation of the first i fragments onto the text
accumulated so far. -/
def specCumulativeTexts (acc : String) : List String → List String
  | [] => []
  | f :: fs => (acc ++ f) :: specCumulativeTexts (acc ++ f) fs

/-- How one streaming session ends: a normal server close, a transport failure
delivered to the onerror handler as an error with the given name, or a
caller-initiated abort. -/
inductive StreamEnding where
  | closed
  | failed (errName : String)
  | aborted
deriving DecidableEq

/-- Callback invocations observable by the caller of streamChatCompletion. -/
inductive CallbackEvent where
  | chunkCall (accumulated : String)
  | completeCall
  | errorCall (errName : String)
deriving DecidableEq

/-- The catch handler attached to the fetchEventSource promise: a rejection
whose error is named AbortError is the expected cancellation and is swallowed;
any other rejection invokes onError. -/
def catchRejected (errName : String) : List CallbackEvent :=
  if errName != "AbortError" then [.errorCall errName] else []

/-- Callback trace of one whole streaming session over the delivered events:
onChunk for each accumulated fragment, then — depending on the ending — the
onclose path (onComplete, promise resolved), the onerror path (onError, the
handler rethrows so the promise rejects with the same error and the catch
handler runs), or the abort path (no further handler runs and the promise
rejects with an AbortError). -/
def runSession (events : List SSEvent) (ending : StreamEnding) :
    List CallbackEvent :=
  let chunkEvents := (processEvents events).chunkCalls.map CallbackEvent.chunkCall
  match ending with
  | .closed => chunkEvents ++ [.completeCall]
  | .failed errName => chunkEvents ++ [.errorCall errName] ++ catchRejected errName
  | .aborted => chunkEvents ++ catchRejected "AbortError"

/-!
Conversation controller: shallow embedding of the sendMessage path of
useChatStream in chat.hooks.ts. React state and refs are modelled as explicit
parameters and results; the generated message ids and the current time are
explicit parameters.
-/

/-- convertMessagesToOpenAIFormat from chat.service.ts. -/
def convertMessagesToOpenAIFormat (messages : List ChatMessage) :
    List (Role × String) :=
  messages.map (fun msg => (msg.role, msg.content))

/-- Outcome of one sendMessage call: one of the validation early returns (with
the error message set by setError), the defensive error thrown and caught
inside the try block, or a started stream carrying the placeholder id and the
outbound API context. -/
inductive SendOutcome where
  | validationError (message : String)
  | unexpectedError (message : String)
  | started (assistantMessageId : String) (apiMessages : List (Role × String))
deriving DecidableEq

/-- Result of one sendMessage call: the outcome, the store state after the
call, and whether a stream was started. -/
structure SendResult where
  outcome : SendOutcome
  store : StoreState
  streamStarted : Bool
deriving DecidableEq

/-- sendMessage from useChatStream in chat.hooks.ts, up to the point where the
stream is started: the four validation checks in source order (empty trimmed
content; missing current thread or user; a stream already in flight; current
thread not found), then the optimistic user-message append, the placeholder
assistant append under a fresh explicit id, and the outbound context built
from the updated thread with empty assistant messages filtered out. -/
def sendMessage (s : StoreState) (userPresent : Bool) (isStreaming : Bool)
    (genUserMessageId : String) (genAssistantMessageId : String) (now : Nat)
    (content : String) : SendResult :=
  if content.trim == "" then
    { outcome := .validationError "Message content cannot be empty"
      store := s, streamStarted := false }
  else
    match s.currentThreadId with
    | none =>
        { outcome := .validationError "No active thread or user"
          store := s, streamStarted := false }
    | some currentThreadId =>
        if !userPresent then
          { outcome := .validationError "No active thread or user"
            store := s, streamStarted := false }
        else if isStreaming then
          { outcome := .validationError "Already streaming a response"
            store := s, streamStarted := false }
        else
          match getCurrentThread s with
          | none =>
              { outcome := .validationError "Thread not found"
                store := s, streamStarted := false }
          | some _ =>
              let s1 := addMessage s currentThreadId Role.user content.trim
                none genUserMessageId now
              let s2 := addMessage s1 currentThreadId Role.assistant ""
                (some genAssistantMessageId) genAssistantMessageId now
              match getCurrentThread s2 with
              | none =>
                  { outcome := .unexpectedError "Thread not found after adding message"
                    store := s2, streamStarted := false }
              | some updatedThread =>
                  let messagesForAPI := updatedThread.messages.filter
                    (fun msg => msg.role != Role.assistant || msg.content.trim != "")
                  { outcome := .started genAssistantMessageId
                      (convertMessagesToOpenAIFormat messagesForAPI)
                    store := s2, streamStarted := true }

/-- The onChunk handler installed by sendMessage: each chunk callback updates
the placeholder message with the accumulated text. Folding it over a list of
onChunk arguments gives the store after those callbacks. -/
def applyChunkCalls (s : StoreState) (threadId : String) (messageId : String)
    (now : Nat) (calls : List String) : StoreState :=
  calls.foldl (fun st c => updateMessage st threadId messageId c now) s

/-- Effect of one streaming callback on the thread store, as installed by
sendMessage: onChunk updates the placeholder, onComplete persists (which does
not change the in-memory store) and clears flags, onError only sets error and
flag state. -/
def applyCallbackToStore (threadId : String) (messageId : String) (now : Nat)
    (s : StoreState) : CallbackEvent → StoreState
  | .chunkCall accumulated => updateMessage s threadId messageId accumulated now
  | .completeCall => s
  | .errorCall _ => s

/-- Store state after a whole callback trace has been delivered to the
handlers installed by sendMessage. -/
def applyCallbacksToStore (threadId : String) (messageId : String) (now : Nat)
    (s : StoreState) (trace : List CallbackEvent) : StoreState :=
  trace.foldl (applyCallbackToStore threadId messageId now) s

/-!
Lemmas about the Completion Stream Client, and the claims that concern it.
-/

/-- One onmessage step, characterized by the fragment the event carries: the
onChunk argument list grows by the new accumulated text exactly when there is
a fragment, the buffer grows by the fragment, and the payload is forwarded to
JSON.parse exactly when it is not the terminator sentinel. -/
theorem onMessage_spec (st : ClientState) (event : SSEvent) :
    (onMessage st event).chunkCalls =
      (match eventFragment event with
       | none => st.chunkCalls
       | some c => st.chunkCalls ++ [st.accumulatedContent ++ c])
    ∧ (onMessage st event).accumulatedContent =
      (match eventFragment event with
       | none => st.accumulatedContent
       | some c => st.accumulatedContent ++ c)
    ∧ (onMessage st event).parseAttempts =
      (if event.data == "[DONE]" then st.parseAttempts
       else st.parseAttempts ++ [event.data]) := by
  unfold onMessage eventFragment
  by_cases hd : (event.data == "[DONE]") = true
  · simp [hd]
  · cases hp : event.parsed with
    | malformed => simp [hd, hp]
    | ok c =>
      cases c with
      | none => simp [hd, hp]
      | some content =>
        by_cases hc : (content == "") = true
        · simp [hd, hp, hc]
        · simp [hd, hp, hc]

/-- Folding the onmessage handler over delivered events: the onChunk arguments
are the cumulative texts of the fragments, and the buffer ends as the initial
text extended by all fragments in order. -/
theorem foldl_onMessage_spec (events : List SSEvent) : ∀ st : ClientState,
    (events.foldl onMessage st).chunkCalls =
      st.chunkCalls ++ specCumulativeTexts st.accumulatedContent (fragments events)
    ∧ (events.foldl onMessage st).accumulatedContent =
      (fragments events).foldl (fun acc c => acc ++ c) st.accumulatedContent := by
  induction events with
  | nil => intro st; simp [fragments, specCumulativeTexts]
  | cons e rest ih =>
    intro st
    obtain ⟨hc, ha, -⟩ := onMessage_spec st e
    cases hf : eventFragment e with
    | none =>
      rw [hf] at hc ha
      obtain ⟨ihc, iha⟩ := ih (onMessage st e)
      refine ⟨?_, ?_⟩
      · simp only [List.foldl_cons, fragments, List.filterMap_cons, hf]
        rw [ihc, hc, ha]
        simp [fragments]
      · simp only [List.foldl_cons, fragments, List.filterMap_cons, hf]
        rw [iha, ha]
        simp [fragments]
    | some c =>
      rw [hf] at hc ha
      obtain ⟨ihc, iha⟩ := ih (onMessage st e)
      refine ⟨?_, ?_⟩
      · simp only [List.foldl_cons, fragments, List.filterMap_cons, hf]
        rw [ihc, hc, ha]
        simp [fragments, specCumulativeTexts]
      · simp only [List.foldl_cons, fragments, List.filterMap_cons, hf]
        rw [iha, ha]
        simp [fragments]

/-- A terminator-sentinel event is a no-op for the onmessage handler. -/
theorem onMessage_done (st : ClientState) (event : SSEvent)
    (h : event.data = "[DONE]") : onMessage st event = st := by
  simp [onMessage, h]

/-- The terminator sentinel never enters the list of payloads forwarded to
JSON.parse. -/
theorem parseAttempts_no_done (events : List SSEvent) : ∀ st : ClientState,
    "[DONE]" ∉ st.parseAttempts →
    "[DONE]" ∉ (events.foldl onMessage st).parseAttempts := by
  induction events with
  | nil => intro st h; simpa using h
  | cons e rest ih =>
    intro st h
    simp only [List.foldl_cons]
    apply ih
    have hp := (onMessage_spec st e).2.2
    by_cases hd : (e.data == "[DONE]") = true
    · rw [hp, if_pos hd]; exact h
    · rw [hp, if_neg hd]
      intro hmem
      rcases List.mem_append.mp hmem with h1 | h1
      · exact h h1
      · have h2 : "[DONE]" = e.data := List.mem_singleton.mp h1
        exact hd (beq_iff_eq.mpr h2.symm)

/-- Demo event stream of claim C3: fragments Hel, lo, bang, then the
terminator sentinel. -/
def c3DemoEvents : List SSEvent :=
  [{ data := "d1", parsed := .ok (some "Hel") },
   { data := "d2", parsed := .ok (some "lo") },
   { data := "d3", parsed := .ok (some "!") },
   { data := "[DONE]", parsed := .ok none }]

/-- Demo store of claim C3: one thread holding a user message and the empty
assistant placeholder with id a1. -/
def c3DemoStore : StoreState :=
  { threads := [{ id := "t1", title := "Hi"
                  messages := [{ id := "u1", role := .user, content := "Hi", timestamp := 1 },
                               { id := "a1", role := .assistant, content := "", timestamp := 2 }]
                  createdAt := 0, updatedAt := 2 }]
    currentThreadId := some "t1" }

/-- Claim C3: onChunk always receives the cumulative text (the concatenation
of the first i fragments at the i-th invocation, as listed by
specCumulativeTexts); on the demo stream the successive onChunk arguments are
Hel, Hello, Hello-bang, and replaying them through updateMessage leaves the
placeholder content equal to the full text. -/
theorem streamed_chunks_are_cumulative :
    (∀ events : List SSEvent,
        (processEvents events).chunkCalls = specCumulativeTexts "" (fragments events))
    ∧ (processEvents c3DemoEvents).chunkCalls = ["Hel", "Hello", "Hello!"]
    ∧ (getThread (applyChunkCalls c3DemoStore "t1" "a1" 9
          (processEvents c3DemoEvents).chunkCalls) "t1").map
        (fun t => t.messages.map (fun m => (m.id, m.content)))
      = some [("u1", "Hi"), ("a1", "Hello!")] := by
  refine ⟨fun events => ?_, by decide, by decide⟩
  have h := (foldl_onMessage_spec events initialClientState).1
  simpa [processEvents, initialClientState] using h

/-- Claim C5: an aborted session delivers exactly the pre-abort onChunk
callbacks: no onComplete, no onError (the catch handler swallows the
AbortError rejection), and the store after the whole callback trace is just
the store after the pre-abort chunk updates. -/
theorem abort_suppresses_completion_and_error (events : List SSEvent) :
    runSession events StreamEnding.aborted
      = ((processEvents events).chunkCalls).map CallbackEvent.chunkCall
    ∧ CallbackEvent.completeCall ∉ runSession events StreamEnding.aborted
    ∧ (∀ errName, CallbackEvent.errorCall errName ∉ runSession events StreamEnding.aborted)
    ∧ (∀ (s : StoreState) (threadId messageId : String) (now : Nat),
        applyCallbacksToStore threadId messageId now s (runSession events StreamEnding.aborted)
          = applyChunkCalls s threadId messageId now (processEvents events).chunkCalls) := by
  have habort : runSession events StreamEnding.aborted
      = ((processEvents events).chunkCalls).map CallbackEvent.chunkCall := by
    simp [runSession, catchRejected]
  refine ⟨habort, ?_, ?_, ?_⟩
  · rw [habort]; simp
  · intro errName; rw [habort]; simp
  · intro s threadId messageId now
    rw [habort]
    simp [applyCallbacksToStore, applyChunkCalls, List.foldl_map, applyCallbackToStore]

/-- Mapped onChunk callbacks contain no onComplete invocation. -/
theorem count_complete_map_chunk (l : List String) :
    (l.map CallbackEvent.chunkCall).count CallbackEvent.completeCall = 0 := by
  rw [List.count_eq_zero]
  simp

/-- Claim C9: a terminator-sentinel payload is never forwarded to JSON.parse,
the event contributes nothing to the session state (in particular no onChunk
invocation), and a stream that ends after the sentinel with a normal close
invokes onComplete exactly once. -/
theorem terminator_never_parsed_and_completes_once (evs1 evs2 : List SSEvent)
    (e : SSEvent) (h : e.data = "[DONE]") :
    "[DONE]" ∉ (processEvents (evs1 ++ e :: evs2)).parseAttempts
    ∧ processEvents (evs1 ++ e :: evs2) = processEvents (evs1 ++ evs2)
    ∧ (runSession (evs1 ++ [e]) StreamEnding.closed).count CallbackEvent.completeCall = 1 := by
  refine ⟨?_, ?_, ?_⟩
  · exact parseAttempts_no_done _ initialClientState (by simp [initialClientState])
  · simp [processEvents, List.foldl_append, onMessage_done _ _ h]
  · simp [runSession, List.count_append, count_complete_map_chunk]

/-- Witness for claim C9 at a concrete stream: one content event then the
terminator sentinel. -/
theorem terminator_witness :
    "[DONE]" ∉ (processEvents ([⟨"x", .ok (some "Hi")⟩] ++ ⟨"[DONE]", .ok none⟩ :: [])).parseAttempts
    ∧ processEvents ([⟨"x", .ok (some "Hi")⟩] ++ ⟨"[DONE]", .ok none⟩ :: [])
        = processEvents ([⟨"x", .ok (some "Hi")⟩] ++ [])
    ∧ (runSession ([⟨"x", .ok (some "Hi")⟩] ++ [⟨"[DONE]", .ok none⟩])
          StreamEnding.closed).count CallbackEvent.completeCall = 1 :=
  terminator_never_parsed_and_completes_once [⟨"x", .ok (some "Hi")⟩] []
    ⟨"[DONE]", .ok none⟩ rfl

/-!
Claims about the conversation controller and the persistence no-op.
-/

/-- With a stream already in flight, sendMessage ends in one of the validation
early returns of the source, each leaving the store untouched. -/
theorem sendMessage_streaming_cases (s : StoreState) (userPresent : Bool)
    (genUserMessageId genAssistantMessageId : String) (now : Nat) (content : String) :
    sendMessage s userPresent true genUserMessageId genAssistantMessageId now content
      = { outcome := SendOutcome.validationError "Message content cannot be empty"
          store := s, streamStarted := false }
    ∨ sendMessage s userPresent true genUserMessageId genAssistantMessageId now content
      = { outcome := SendOutcome.validationError "No active thread or user"
          store := s, streamStarted := false }
    ∨ sendMessage s userPresent true genUserMessageId genAssistantMessageId now content
      = { outcome := SendOutcome.validationError "Already streaming a response"
          store := s, streamStarted := false } := by
  unfold sendMessage
  by_cases h1 : (content.trim == "") = true
  · rw [if_pos h1]; left; rfl
  · rw [if_neg h1]
    cases s.currentThreadId with
    | none => right; left; rfl
    | some tid =>
      cases userPresent with
      | false => right; left; rfl
      | true => right; right; rfl

/-- Claim C4: calling sendMessage while a stream is in flight mutates no store
state, starts no stream, and produces a validation-kind error outcome. -/
theorem send_while_streaming_rejected (s : StoreState) (userPresent : Bool)
    (genUserMessageId genAssistantMessageId : String) (now : Nat) (content : String) :
    (sendMessage s userPresent true genUserMessageId genAssistantMessageId now content).store = s
    ∧ (sendMessage s userPresent true genUserMessageId genAssistantMessageId now content).streamStarted = false
    ∧ ∃ message,
        (sendMessage s userPresent true genUserMessageId genAssistantMessageId now content).outcome
          = SendOutcome.validationError message := by
  rcases sendMessage_streaming_cases s userPresent genUserMessageId
    genAssistantMessageId now content with h | h | h <;>
    rw [h] <;> exact ⟨rfl, rfl, _, rfl⟩

/-- Claim C10: loadThreads leaves the state entirely unchanged when no entry
is persisted for the owner and when the stored value fails to parse. -/
theorem loadThreads_no_entry_is_noop (s : StoreState) :
    loadThreads StoredValue.absent s = s ∧ loadThreads StoredValue.unparseable s = s :=
  ⟨rfl, rfl⟩

/-!
Deduplication lemmas and the load/save round-trip claim.
-/

/-- Unfolding of the deduplication loop on a cons cell. -/
theorem dedupMessagesAux_cons (seen : List String) (m : ChatMessage)
    (rest : List ChatMessage) :
    dedupMessagesAux seen (m :: rest)
      = if m.id ∈ seen then dedupMessagesAux seen rest
        else m :: dedupMessagesAux (m.id :: seen) rest := rfl

/-- Filtering a deduplicated list by one id yields the first original message
with that id, provided the id was not already marked as seen (and nothing at
all when it was). -/
theorem filter_dedupMessagesAux (d : String) (ms : List ChatMessage) :
    ∀ seen : List String,
    (dedupMessagesAux seen ms).filter (fun m => m.id == d) =
      if d ∈ seen then [] else (ms.find? (fun m => m.id == d)).toList := by
  induction ms with
  | nil => intro seen; simp [dedupMessagesAux]
  | cons m rest ih =>
    intro seen
    rw [dedupMessagesAux_cons]
    by_cases hm : m.id ∈ seen
    · rw [if_pos hm, ih seen]
      by_cases hd : d ∈ seen
      · simp [hd]
      · have hne : (m.id == d) = false := by
          simp only [beq_eq_false_iff_ne, ne_eq]
          intro he
          exact hd (he ▸ hm)
        simp [hd, List.find?_cons, hne]
    · rw [if_neg hm]
      by_cases hid : (m.id == d) = true
      · have hde : m.id = d := beq_iff_eq.mp hid
        have hd : d ∉ seen := fun hin => hm (hde ▸ hin)
        have hmem : d ∈ m.id :: seen := by
          rw [hde]
          exact List.mem_cons_self d seen
        simp [List.filter_cons, hid, ih (m.id :: seen), hmem, hd]
      · have hne : (m.id == d) = false := by simpa using hid
        have hdm : (d ∈ m.id :: seen) ↔ (d ∈ seen) := by
          constructor
          · intro hin
            rcases List.mem_cons.mp hin with h1 | h1
            · exact absurd (beq_iff_eq.mpr h1.symm) hid
            · exact h1
          · exact fun h1 => List.mem_cons_of_mem _ h1
        simp [List.filter_cons, hne, ih (m.id :: seen), hdm]

/-- Searching a deduplicated list for an unseen id finds exactly the first
original occurrence. -/
theorem find?_dedupMessagesAux (d : String) (ms : List ChatMessage) :
    ∀ seen : List String, d ∉ seen →
    (dedupMessagesAux seen ms).find? (fun m => m.id == d)
      = ms.find? (fun m => m.id == d) := by
  induction ms with
  | nil => intro seen _; simp [dedupMessagesAux]
  | cons m rest ih =>
    intro seen h
    rw [dedupMessagesAux_cons]
    by_cases hm : m.id ∈ seen
    · have hne : (m.id == d) = false := by
        simp only [beq_eq_false_iff_ne, ne_eq]
        intro he
        exact h (he ▸ hm)
      rw [if_pos hm, ih seen h]
      simp [List.find?_cons, hne]
    · rw [if_neg hm]
      by_cases hid : (m.id == d) = true
      · simp [List.find?_cons, hid]
      · have hne : (m.id == d) = false := by simpa using hid
        have hnotin : d ∉ m.id :: seen := by
          intro hin
          rcases List.mem_cons.mp hin with h1 | h1
          · exact hid (beq_iff_eq.mpr h1.symm)
          · exact h h1
        simp [List.find?_cons, hne, ih (m.id :: seen) hnotin]

/-- Claim C1: when a persisted thread contains two messages with the same id,
the loadThreads followed by saveThreads round trip persists a thread with the
same id holding exactly one message with the duplicated id, namely the first
occurrence in the original message order. -/
theorem dedup_on_load_save_roundtrip (parsedThreads : List ChatThread)
    (s : StoreState) (t : ChatThread) (d : String)
    (ht : t ∈ parsedThreads)
    (hdup : 2 ≤ (t.messages.filter (fun m => m.id == d)).length) :
    ∃ t1 ∈ saveThreads (loadThreads (StoredValue.parsed parsedThreads) s),
      t1.id = t.id
      ∧ ∃ m, t.messages.find? (fun m0 => m0.id == d) = some m
          ∧ t1.messages.filter (fun m0 => m0.id == d) = [m] := by
  refine ⟨{ t with messages := dedupMessages (dedupMessages t.messages) }, ?_, rfl, ?_⟩
  · show _ ∈ saveThreads (loadThreads (StoredValue.parsed parsedThreads) s)
    unfold saveThreads loadThreads sortThreadsDesc
    simp only [List.mem_insertionSort]
    refine List.mem_map.mpr ⟨{ t with messages := dedupMessages t.messages }, ?_, rfl⟩
    simp only [List.mem_insertionSort]
    exact List.mem_map_of_mem _ ht
  · have hex : ∃ x, x ∈ t.messages ∧ (x.id == d) = true := by
      rcases hfil : t.messages.filter (fun m0 => m0.id == d) with - | ⟨m, rest⟩
      · rw [hfil] at hdup
        simp at hdup
      · have hm : m ∈ t.messages.filter (fun m0 => m0.id == d) := by
          rw [hfil]
          exact List.mem_cons_self _ _
        have h2 := List.mem_filter.mp hm
        exact ⟨m, h2.1, h2.2⟩
    have hsome : (t.messages.find? (fun m0 => m0.id == d)).isSome :=
      List.find?_isSome.mpr hex
    obtain ⟨m, hm⟩ := Option.isSome_iff_exists.mp hsome
    refine ⟨m, hm, ?_⟩
    show (dedupMessages (dedupMessages t.messages)).filter (fun m0 => m0.id == d) = [m]
    unfold dedupMessages
    rw [filter_dedupMessagesAux d (dedupMessagesAux [] t.messages) [],
      if_neg (List.not_mem_nil d),
      find?_dedupMessagesAux d t.messages [] (List.not_mem_nil d), hm]
    rfl

/-- Concrete persisted thread of the claim C1 witness: two messages share the
id m1, with distinct contents. -/
def c1DupThread : ChatThread :=
  { id := "t1", title := "T"
    messages := [{ id := "m1", role := .user, content := "a", timestamp := 0 },
                 { id := "m2", role := .user, content := "b", timestamp := 1 },
                 { id := "m1", role := .user, content := "c", timestamp := 2 }]
    createdAt := 0, updatedAt := 5 }

/-- Witness for claim C1 at a concrete persisted collection. -/
theorem dedup_on_load_save_roundtrip_witness :
    ∃ t1 ∈ saveThreads (loadThreads (StoredValue.parsed [c1DupThread])
        { threads := [], currentThreadId := none }),
      t1.id = c1DupThread.id
      ∧ ∃ m, c1DupThread.messages.find? (fun m0 => m0.id == "m1") = some m
          ∧ t1.messages.filter (fun m0 => m0.id == "m1") = [m] :=
  dedup_on_load_save_roundtrip [c1DupThread] { threads := [], currentThreadId := none }
    c1DupThread "m1" (List.mem_singleton.mpr rfl) (by decide)

/-!
Idempotent append: claim C2.
-/

/-- A thread that is not the addressed one is untouched by applyAddMessage. -/
theorem applyAddMessage_of_ne (threadId : String) (role : Role)
    (newMessage : ChatMessage) (now : Nat) (t : ChatThread)
    (h : (t.id == threadId) = false) :
    applyAddMessage threadId role newMessage now t = t := by
  unfold applyAddMessage
  simp [h]

/-- A thread already containing the message id is untouched by
applyAddMessage. -/
theorem applyAddMessage_of_contains (threadId : String) (role : Role)
    (newMessage : ChatMessage) (now : Nat) (t : ChatThread)
    (h : t.messages.any (fun msg => msg.id == newMessage.id) = true) :
    applyAddMessage threadId role newMessage now t = t := by
  unfold applyAddMessage
  by_cases hid : (t.id == threadId) = true
  · simp [hid, h]
  · simp [hid]

/-- The addressed thread without the message id gets it appended, with the
refreshed timestamp and the auto-derived title. -/
theorem applyAddMessage_append (threadId : String) (role : Role)
    (newMessage : ChatMessage) (now : Nat) (t : ChatThread)
    (hid : (t.id == threadId) = true)
    (hc : t.messages.any (fun msg => msg.id == newMessage.id) = false) :
    applyAddMessage threadId role newMessage now t
      = { t with
          messages := t.messages ++ [newMessage]
          updatedAt := now
          title :=
            if t.title == "New Chat" && role == Role.user then
              generateThreadTitle (t.messages ++ [newMessage])
            else t.title } := by
  unfold applyAddMessage
  simp [hid, hc]

/-- applyAddMessage never changes the thread id. -/
theorem applyAddMessage_keeps_id (threadId : String) (role : Role)
    (newMessage : ChatMessage) (now : Nat) (t : ChatThread) :
    (applyAddMessage threadId role newMessage now t).id = t.id := by
  unfold applyAddMessage
  by_cases hid : (t.id == threadId) = true
  · by_cases hc : t.messages.any (fun msg => msg.id == newMessage.id) = true
    · simp [hid, hc]
    · simp only [Bool.not_eq_true] at hc
      simp [hid, hc]
  · simp [hid]

/-- Applying applyAddMessage a second time with a message bearing the same id
is the identity on the result of the first application. -/
theorem applyAddMessage_idem (threadId : String) (r1 r2 : Role)
    (msg1 msg2 : ChatMessage) (n1 n2 : Nat) (hid : msg2.id = msg1.id)
    (t : ChatThread) :
    applyAddMessage threadId r2 msg2 n2 (applyAddMessage threadId r1 msg1 n1 t)
      = applyAddMessage threadId r1 msg1 n1 t := by
  by_cases ht : (t.id == threadId) = true
  · by_cases hc : t.messages.any (fun msg => msg.id == msg1.id) = true
    · rw [applyAddMessage_of_contains _ _ _ _ _ hc]
      exact applyAddMessage_of_contains _ _ _ _ _ (by rw [hid]; exact hc)
    · have hc2 : t.messages.any (fun msg => msg.id == msg1.id) = false := by
        simpa using hc
      rw [applyAddMessage_append _ _ _ _ _ ht hc2]
      apply applyAddMessage_of_contains
      simp [hid, List.any_append]
  · have ht2 : (t.id == threadId) = false := by simpa using ht
    rw [applyAddMessage_of_ne _ _ _ _ _ ht2]
    exact applyAddMessage_of_ne _ _ _ _ _ ht2

/-- Claim C2: adding a message twice with the same explicit id leaves the
second call a silent no-op (the whole store state is unchanged by it), and the
thread holds exactly one message with that id, provided it held at most one
before. -/
theorem addMessage_idempotent_append (s : StoreState) (tid mid : String)
    (r1 r2 : Role) (c1 c2 g1 g2 : String) (n1 n2 : Nat) (t : ChatThread)
    (ht : t ∈ s.threads) (hid : t.id = tid)
    (hcount : (t.messages.filter (fun m => m.id == mid)).length ≤ 1) :
    addMessage (addMessage s tid r1 c1 (some mid) g1 n1) tid r2 c2 (some mid) g2 n2
      = addMessage s tid r1 c1 (some mid) g1 n1
    ∧ ∃ t1 ∈ (addMessage s tid r1 c1 (some mid) g1 n1).threads,
        t1.id = tid ∧ (t1.messages.filter (fun m => m.id == mid)).length = 1 := by
  constructor
  · unfold addMessage
    refine StoreState.ext ?_ rfl
    show ((s.threads.map _).map _) = s.threads.map _
    rw [List.map_map]
    apply List.map_congr_left
    intro a _
    show applyAddMessage tid r2
        { id := (some mid).getD g2, role := r2, content := c2, timestamp := n2 } n2
        (applyAddMessage tid r1
          { id := (some mid).getD g1, role := r1, content := c1, timestamp := n1 } n1 a)
      = applyAddMessage tid r1
          { id := (some mid).getD g1, role := r1, content := c1, timestamp := n1 } n1 a
    exact applyAddMessage_idem tid r1 r2
      { id := (some mid).getD g1, role := r1, content := c1, timestamp := n1 }
      { id := (some mid).getD g2, role := r2, content := c2, timestamp := n2 }
      n1 n2 rfl a
  · refine ⟨applyAddMessage tid r1
      { id := mid, role := r1, content := c1, timestamp := n1 } n1 t, ?_, ?_, ?_⟩
    · exact List.mem_map_of_mem _ ht
    · rw [applyAddMessage_keeps_id]
      exact hid
    · have htid : (t.id == tid) = true := beq_iff_eq.mpr hid
      by_cases hc : t.messages.any (fun msg => msg.id == mid) = true
      · rw [applyAddMessage_of_contains _ _ _ _ _ hc]
        obtain ⟨x, hx, hpx⟩ := List.any_eq_true.mp hc
        have hxf : x ∈ t.messages.filter (fun m => m.id == mid) :=
          List.mem_filter.mpr ⟨hx, hpx⟩
        have hpos : 0 < (t.messages.filter (fun m => m.id == mid)).length :=
          List.length_pos.mpr (List.ne_nil_of_mem hxf)
        exact Nat.le_antisymm hcount hpos
      · have hc2 : t.messages.any (fun msg => msg.id == mid) = false := by
          simpa using hc
        rw [applyAddMessage_append _ _ _ _ _ htid hc2]
        have hnil : t.messages.filter (fun m => m.id == mid) = [] := by
          rw [List.filter_eq_nil_iff]
          intro a ha hpa
          have hany : (t.messages.any fun msg => msg.id == mid) = true :=
            List.any_eq_true.mpr ⟨a, ha, hpa⟩
          rw [hc2] at hany
          exact Bool.false_ne_true hany
        simp [List.filter_append, hnil]

/-- Concrete store of the claim C2 witness: one empty selected thread. -/
def c2State : StoreState :=
  { threads := [{ id := "t1", title := "T", messages := [], createdAt := 0, updatedAt := 0 }]
    currentThreadId := some "t1" }

/-- Witness for claim C2 at a concrete store and explicit message id. -/
theorem addMessage_idempotent_append_witness :
    addMessage (addMessage c2State "t1" Role.user "hi" (some "m1") "g1" 1)
        "t1" Role.user "hi" (some "m1") "g2" 2
      = addMessage c2State "t1" Role.user "hi" (some "m1") "g1" 1
    ∧ ∃ t1 ∈ (addMessage c2State "t1" Role.user "hi" (some "m1") "g1" 1).threads,
        t1.id = "t1" ∧ (t1.messages.filter (fun m => m.id == "m1")).length = 1 :=
  addMessage_idempotent_append c2State "t1" "m1" Role.user Role.user "hi" "hi"
    "g1" "g2" 1 2
    { id := "t1", title := "T", messages := [], createdAt := 0, updatedAt := 0 }
    (List.mem_singleton.mpr rfl) rfl (by decide)

/-!
Recency ordering: claim C6 fails on addMessage and is corrected.
-/

/-- Sorted state used by the claim C6 counterexample: thread A more recent
than thread B. -/
def c6State : StoreState :=
  { threads := [{ id := "A", title := "Alpha", messages := [], createdAt := 0, updatedAt := 10 },
                { id := "B", title := "Beta", messages := [], createdAt := 0, updatedAt := 5 }]
    currentThreadId := none }

/-- Counterexample to claim C6: starting from a descending-sorted collection,
one addMessage to the older thread refreshes its updatedAt in place without
re-sorting, leaving the in-memory list out of descending order. -/
theorem recency_order_counterexample :
    sortedByUpdatedAtDesc c6State.threads
    ∧ ¬ sortedByUpdatedAtDesc
        (addMessage c6State "B" Role.user "hi" none "m9" 20).threads := by
  constructor
  · decide
  · decide

/-- A thread prepended on top of a sorted list stays sorted when its updatedAt
dominates the list. -/
theorem sorted_cons_of_le (nt : ChatThread) (l : List ChatThread)
    (h1 : List.Sorted threadGE l) (h2 : ∀ t ∈ l, t.updatedAt ≤ nt.updatedAt) :
    List.Sorted threadGE (nt :: l) :=
  List.sorted_cons.mpr ⟨h2, h1⟩

/-- Claim C6, amended: loadThreads always leaves the in-memory list in
descending updatedAt order, createThread preserves that order whenever the
creation time is at least every existing updatedAt, and the persisted output
of saveThreads is always in descending order; addMessage refreshes updatedAt
in place and does not re-sort (see the counterexample). -/
theorem recency_order_amended :
    (∀ (parsedThreads : List ChatThread) (s : StoreState),
        sortedByUpdatedAtDesc (loadThreads (StoredValue.parsed parsedThreads) s).threads)
    ∧ (∀ (s : StoreState) (title : Option String) (threadId : String) (now : Nat),
        sortedByUpdatedAtDesc s.threads →
        (∀ t ∈ s.threads, t.updatedAt ≤ now) →
        sortedByUpdatedAtDesc (createThread s title threadId now).threads)
    ∧ (∀ s : StoreState, sortedByUpdatedAtDesc (saveThreads s)) := by
  refine ⟨fun parsedThreads s => ?_, fun s title threadId now h1 h2 => ?_, fun s => ?_⟩
  · exact List.sorted_insertionSort threadGE _
  · exact sorted_cons_of_le _ s.threads h1 h2
  · exact List.sorted_insertionSort threadGE _

/-- Witness for the amended claim C6 at a concrete sorted store. -/
theorem recency_order_amended_witness :
    sortedByUpdatedAtDesc (loadThreads (StoredValue.parsed c6State.threads)
        { threads := [], currentThreadId := none }).threads
    ∧ sortedByUpdatedAtDesc (createThread c6State none "N" 50).threads :=
  ⟨recency_order_amended.1 c6State.threads { threads := [], currentThreadId := none },
   recency_order_amended.2.1 c6State none "N" 50 (by decide) (by decide)⟩

/-!
Deletion reassignment: claim C7 holds only up to the ordering invariant and is
corrected.
-/

/-- State of the claim C7 counterexample: current thread A, with the remaining
threads out of recency order (B before the more recent C), as reachable after
an addMessage to C. -/
def c7State : StoreState :=
  { threads := [{ id := "A", title := "TA", messages := [], createdAt := 0, updatedAt := 3 },
                { id := "B", title := "TB", messages := [], createdAt := 0, updatedAt := 2 },
                { id := "C", title := "TC", messages := [], createdAt := 0, updatedAt := 20 }]
    currentThreadId := some "A" }

/-- Counterexample to claim C7: deleting the current thread reassigns the
selection to the head of the remaining list (B, updatedAt 2) even though the
remaining thread C carries the strictly greatest updatedAt 20. -/
theorem delete_reassign_counterexample :
    (deleteThread c7State "A").currentThreadId = some "B"
    ∧ (∃ t ∈ (deleteThread c7State "A").threads, t.id = "C" ∧ t.updatedAt = 20)
    ∧ (∀ t ∈ (deleteThread c7State "A").threads, t.id = "B" → t.updatedAt = 2) := by
  refine ⟨by decide, by decide, by decide⟩

/-- Claim C7, amended: deleteThread removes the addressed thread; deleting a
non-current thread leaves the selection unchanged; deleting the current thread
moves the selection to the first remaining thread in list order (or none when
nothing remains), and that first thread is the most-recently-updated remaining
one whenever the list was in descending updatedAt order. -/
theorem delete_reassign_amended (s : StoreState) (threadId : String) :
    (deleteThread s threadId).threads = s.threads.filter (fun t => t.id != threadId)
    ∧ (s.currentThreadId ≠ some threadId →
        (deleteThread s threadId).currentThreadId = s.currentThreadId)
    ∧ (s.currentThreadId = some threadId →
        s.threads.filter (fun t => t.id != threadId) = [] →
        (deleteThread s threadId).currentThreadId = none)
    ∧ (∀ (h : ChatThread) (rest : List ChatThread),
        s.currentThreadId = some threadId →
        s.threads.filter (fun t => t.id != threadId) = h :: rest →
        (deleteThread s threadId).currentThreadId = some h.id
        ∧ (sortedByUpdatedAtDesc s.threads → ∀ u ∈ rest, u.updatedAt ≤ h.updatedAt)) := by
  refine ⟨rfl, ?_, ?_, ?_⟩
  · intro hne
    show (if s.currentThreadId = some threadId then
            match s.threads.filter (fun t => t.id != threadId) with
            | [] => none
            | h :: _ => some h.id
          else s.currentThreadId) = s.currentThreadId
    rw [if_neg hne]
  · intro heq hfil
    show (if s.currentThreadId = some threadId then
            match s.threads.filter (fun t => t.id != threadId) with
            | [] => none
            | h :: _ => some h.id
          else s.currentThreadId) = none
    rw [if_pos heq, hfil]
  · intro h rest heq hfil
    constructor
    · show (if s.currentThreadId = some threadId then
              match s.threads.filter (fun t => t.id != threadId) with
              | [] => none
              | h :: _ => some h.id
            else s.currentThreadId) = some h.id
      rw [if_pos heq, hfil]
    · intro hsorted u hu
      have hfs : List.Sorted threadGE (s.threads.filter (fun t => t.id != threadId)) :=
        List.Pairwise.filter _ hsorted
      rw [hfil] at hfs
      exact List.rel_of_sorted_cons hfs u hu

/-- Sorted state for the claim C7 witness: current thread A on top, C and B
remaining in descending order. -/
def c7SortedState : StoreState :=
  { threads := [{ id := "A", title := "TA", messages := [], createdAt := 0, updatedAt := 30 },
                { id := "C", title := "TC", messages := [], createdAt := 0, updatedAt := 20 },
                { id := "B", title := "TB", messages := [], createdAt := 0, updatedAt := 2 }]
    currentThreadId := some "A" }

/-- The thread C of the claim C7 witness state. -/
def c7ThreadC : ChatThread :=
  { id := "C", title := "TC", messages := [], createdAt := 0, updatedAt := 20 }

/-- The thread B of the claim C7 witness state. -/
def c7ThreadB : ChatThread :=
  { id := "B", title := "TB", messages := [], createdAt := 0, updatedAt := 2 }

/-- Witness for the amended claim C7 at a concrete sorted store. -/
theorem delete_reassign_amended_witness :
    (deleteThread c7SortedState "A").threads
      = c7SortedState.threads.filter (fun t => t.id != "A")
    ∧ (deleteThread c7SortedState "A").currentThreadId = some c7ThreadC.id
    ∧ (∀ u ∈ [c7ThreadB], u.updatedAt ≤ c7ThreadC.updatedAt) := by
  have h := delete_reassign_amended c7SortedState "A"
  have h4 := h.2.2.2 c7ThreadC [c7ThreadB] rfl (by decide)
  exact ⟨h.1, h4.1, h4.2 (by decide)⟩

/-!
Unknown message id: claim C8 fails on the updatedAt refresh and is corrected.
-/

/-- State of the claim C8 counterexample and witness: one thread with a single
message m1 and updatedAt 5. -/
def c8State : StoreState :=
  { threads := [{ id := "t1", title := "T"
                  messages := [{ id := "m1", role := .assistant, content := "x", timestamp := 0 }]
                  createdAt := 0, updatedAt := 5 }]
    currentThreadId := some "t1" }

/-- Counterexample to claim C8: updateMessage with a message id absent from
the addressed thread leaves every message list unchanged but still refreshes
the updatedAt of the addressed thread, so the store state is not unchanged. -/
theorem update_unknown_message_counterexample :
    updateMessage c8State "t1" "missing" "new" 10 ≠ c8State
    ∧ (updateMessage c8State "t1" "missing" "new" 10).threads.map (fun t => t.updatedAt) = [10]
    ∧ c8State.threads.map (fun t => t.updatedAt) = [5]
    ∧ (updateMessage c8State "t1" "missing" "new" 10).threads.map (fun t => t.messages)
        = c8State.threads.map (fun t => t.messages) := by
  refine ⟨by decide, by decide, by decide, by decide⟩

/-- Claim C8, amended: when the message id is absent from every thread with
the addressed id, updateMessage changes no message list and no selection, but
it does refresh the updatedAt of the addressed thread to the call time. -/
theorem update_unknown_message_amended (s : StoreState)
    (threadId messageId content : String) (now : Nat)
    (h : ∀ t ∈ s.threads, t.id = threadId → ∀ m ∈ t.messages, m.id ≠ messageId) :
    (updateMessage s threadId messageId content now).threads
      = s.threads.map (fun t => if t.id == threadId then { t with updatedAt := now } else t)
    ∧ (updateMessage s threadId messageId content now).currentThreadId
      = s.currentThreadId := by
  refine ⟨?_, rfl⟩
  show s.threads.map (applyUpdateMessage threadId messageId content now) = _
  apply List.map_congr_left
  intro t htmem
  unfold applyUpdateMessage
  by_cases hid : (t.id == threadId) = true
  · rw [if_pos hid, if_pos hid]
    have hpt : ∀ m ∈ t.messages,
        (if m.id == messageId then { m with content := content } else m) = m := by
      intro m hm
      have hne : (m.id == messageId) = false := by
        have := h t htmem (beq_iff_eq.mp hid) m hm
        simpa using this
      simp [hne]
    rw [List.map_congr_left hpt]
    simp
  · rw [if_neg hid, if_neg hid]

/-- Witness for the amended claim C8 at the concrete store. -/
theorem update_unknown_message_amended_witness :
    (updateMessage c8State "t1" "missing" "new" 10).threads
      = c8State.threads.map (fun t => if t.id == "t1" then { t with updatedAt := 10 } else t)
    ∧ (updateMessage c8State "t1" "missing" "new" 10).currentThreadId
      = c8State.currentThreadId :=
  update_unknown_message_amended c8State "t1" "missing" "new" 10 (by decide)
